import Mathlib

/-
Verification development for the cluster transport client
(cluster/transport/client.go): a leader-connection cache (`getConn`,
`Close`) built on an address resolver (`rpcResolver.Address`, backed by
net.SplitHostPort and strconv.Atoi) and the five client operations
(Join, Notify, Remove, Apply, Query).

Modelling conventions:
- Strings are Lean `String`s; the Go code indexes bytes while we index
  characters, which agrees on the separator characters involved
  (ASCII colon and brackets never occur inside a multi-byte UTF-8 rune).
- Go `int` is 64-bit two's-complement; the one place arithmetic can
  overflow (the +1 port offset) goes through `wrap64`.
- Connection handles are modelled as (id, dial target) pairs; dialing
  hands out a fresh id.  Side effects (resolver calls, dials, handle
  closes) are recorded in an event trace carried by a `World`.
- Fallible collaborators (the resolver interface, grpc.Dial, the remote
  call) are abstract functions packaged in an `Env`; error message text
  of the standard library is abbreviated, only its presence matters.
- Cancellation contexts and the retry/backoff service config are not
  modelled; no claim below depends on them.
-/

deriving instance DecidableEq for Except

namespace Transport

/-- A gRPC connection handle: its allocation id and the address it was
dialed to. -/
structure ConnHandle where
  id : Nat
  target : String
deriving DecidableEq, Repr

/-- Observable side effects of the client: invoking the resolver,
dialing a channel, closing a handle. -/
inductive Ev where
  | resolve (raftAddr : String)
  | dial (rpcAddr : String)
  | close (conn : ConnHandle)
deriving DecidableEq, Repr

/-- The mutable fields of Go `Client`: `leaderAddr string` (zero value
is the empty string) and `leaderConn *grpc.ClientConn` (nil is `none`). -/
structure CState where
  leaderAddr : String
  leaderConn : Option ConnHandle
deriving DecidableEq, Repr

/-- A client state together with a fresh-id supply for dialed handles
and the event trace produced so far. -/
structure World where
  st : CState
  fresh : Nat
  events : List Ev
deriving DecidableEq, Repr

def World.initial : World := ⟨⟨"", none⟩, 0, []⟩

/-- The abstract collaborators of the client: the `rpcAddressResolver`
interface, whether `grpc.Dial` succeeds on a given target (and its
error text when it does not), and the outcome of the remote call made
over a given handle. -/
structure Env where
  rpc : String → Except String String
  dialOk : String → Bool
  dialErrMsg : String → String
  remoteResult : ConnHandle → Except String String

/-- Index of the first occurrence of a character in a list. -/
def firstIdx (l : List Char) (c : Char) : Option Nat :=
  match l with
  | [] => none
  | x :: xs => if x = c then some 0 else (firstIdx xs c).map (· + 1)

/-- Index of the last occurrence of a character in a list
(Go net packge helper `last`). -/
def lastIdx (l : List Char) (c : Char) : Option Nat :=
  match l with
  | [] => none
  | x :: xs =>
    match lastIdx xs c with
    | some i => some (i + 1)
    | none => if x = c then some 0 else none

/-- net.SplitHostPort: splits "host:port" or "[host]:port" at the last
colon, rejecting stray colons and brackets.  Error strings abbreviate
those of the net package. -/
def splitHostPort (hostport : String) : Except String (String × String) :=
  let l := hostport.toList
  let addrErr := fun (why : String) =>
    (Except.error ("address " ++ hostport ++ ": " ++ why) :
      Except String (String × String))
  match lastIdx l ':' with
  | none => addrErr "missing port in address"
  | some i =>
    let port := String.mk (l.drop (i + 1))
    if l.head? = some '[' then
      match firstIdx l ']' with
      | none => addrErr "missing right bracket in address"
      | some endi =>
        if endi + 1 = l.length then addrErr "missing port in address"
        else if endi + 1 = i then
          if firstIdx (l.drop 1) '[' ≠ none then
            addrErr "missing right bracket in address"
          else if firstIdx (l.drop (endi + 1)) ']' ≠ none then
            addrErr "unexpected right bracket in address"
          else Except.ok (String.mk ((l.take endi).drop 1), port)
        else if l.get? (endi + 1) = some ':' then
          addrErr "too many colons in address"
        else addrErr "missing port in address"
    else
      if firstIdx (l.take i) ':' ≠ none then addrErr "too many colons in address"
      else if firstIdx l '[' ≠ none then addrErr "missing right bracket in address"
      else if firstIdx l ']' ≠ none then addrErr "unexpected right bracket in address"
      else Except.ok (String.mk (l.take i), port)

def isDigitChar (c : Char) : Bool := 48 ≤ c.toNat && c.toNat ≤ 57

def digitsToNat (ds : List Char) : Nat :=
  ds.foldl (fun acc d => acc * 10 + (d.toNat - 48)) 0

/-- The digits-and-range part of strconv.Atoi, after the sign has been
stripped: at least one ASCII digit, value within the signed 64-bit
range.  Error strings abbreviate those of strconv. -/
def atoiCore (neg : Bool) (ds : List Char) : Except String Int :=
  if ds.isEmpty then Except.error "invalid syntax"
  else if ds.all isDigitChar then
    let v : Int := if neg then -(digitsToNat ds : Int) else (digitsToNat ds : Int)
    if -(2 ^ 63) ≤ v ∧ v ≤ 2 ^ 63 - 1 then Except.ok v
    else Except.error "value out of range"
  else Except.error "invalid syntax"

/-- strconv.Atoi on a 64-bit platform: an optional single sign followed
by at least one ASCII digit, value within the signed 64-bit range. -/
def Atoi (s : String) : Except String Int :=
  let l := s.toList
  atoiCore (l.head? == some '-')
    (if l.head? == some '-' || l.head? == some '+' then l.tail else l)

/-- Two's-complement wraparound of a 64-bit signed integer. -/
def wrap64 (n : Int) : Int := (n + 2 ^ 63) % 2 ^ 64 - 2 ^ 63

/-- The concrete resolver `rpcResolver{isLocalCluster, rpcPort}`. -/
structure rpcResolver where
  isLocalCluster : Bool
  rpcPort : Int
deriving DecidableEq, Repr

/-- rpcResolver.Address: split host and port; in a non-local cluster
return host:rpcPort; in a local cluster parse the port and return
host:(port+1), with Go 64-bit int addition. -/
def rpcResolver.Address (r : rpcResolver) (raftAddr : String) : Except String String :=
  match splitHostPort raftAddr with
  | .error e => .error e
  | .ok (host, port) =>
    if !r.isLocalCluster then
      .ok (host ++ ":" ++ toString r.rpcPort)
    else
      match Atoi port with
      | .error e => .error e
      | .ok iPort => .ok (host ++ ":" ++ toString (wrap64 (iPort + 1)))

/-- The resolve-then-dial tail of Client.getConn (everything after the
cache bookkeeping): resolve the address, dial it, and on success store
both fields; on dial failure `cl.leaderConn, err = grpc.Dial(...)`
overwrites the connection with nil while `leaderAddr` keeps its old
value. -/
def getConnDial (env : Env) (w : World) (la : String) : Except String ConnHandle × World :=
  let w1 : World := { w with events := w.events ++ [Ev.resolve la] }
  match env.rpc la with
  | .error e => (.error ("resolve address: " ++ e), w1)
  | .ok addr =>
    let w2 : World := { w1 with events := w1.events ++ [Ev.dial addr] }
    if env.dialOk addr then
      let c : ConnHandle := ⟨w2.fresh, addr⟩
      (.ok c, { w2 with fresh := w2.fresh + 1,
                        st := { leaderAddr := la, leaderConn := some c } })
    else
      (.error ("dial: " ++ env.dialErrMsg addr),
       { w2 with st := { w2.st with leaderConn := none } })

/-- Client.getConn: return the cached handle when one is present and
the address is unchanged; otherwise close the stale handle (if any)
and resolve + dial the new address. -/
def getConn (env : Env) (w : World) (la : String) : Except String ConnHandle × World :=
  match w.st.leaderConn with
  | some c =>
    if la = w.st.leaderAddr then (.ok c, w)
    else getConnDial env { w with events := w.events ++ [Ev.close c] } la
  | none => getConnDial env w la

/-- Client.Close: close the cached handle when present.  It does not
reset `leaderConn` or `leaderAddr`. -/
def Close (w : World) : World :=
  match w.st.leaderConn with
  | some c => { w with events := w.events ++ [Ev.close c] }
  | none => w

/-- Common shape of Join/Remove/Apply/Query: fetch a connection from
the cache and make the remote call over it, passing the remote result
or the connection error through unchanged. -/
def cacheOp (env : Env) (w : World) (la : String) : Except String String × World :=
  match getConn env w la with
  | (.error e, w1) => (.error e, w1)
  | (.ok c, w1) => (env.remoteResult c, w1)

def Join (env : Env) (w : World) (leaderAddress : String) : Except String String × World :=
  cacheOp env w leaderAddress

def Remove (env : Env) (w : World) (leaderAddress : String) : Except String String × World :=
  cacheOp env w leaderAddress

def Apply (env : Env) (w : World) (leaderAddr : String) : Except String String × World :=
  cacheOp env w leaderAddr

def Query (env : Env) (w : World) (leaderAddress : String) : Except String String × World :=
  cacheOp env w leaderAddress

/-- Client.Notify: resolve, dial a private connection, make the call,
and close the private connection on every exit path (`defer
conn.Close()`); the leader cache is never touched. -/
def Notify (env : Env) (w : World) (rAddr : String) : Except String String × World :=
  let w1 : World := { w with events := w.events ++ [Ev.resolve rAddr] }
  match env.rpc rAddr with
  | .error e => (.error ("resolve address: " ++ e), w1)
  | .ok addr =>
    let w2 : World := { w1 with events := w1.events ++ [Ev.dial addr] }
    if env.dialOk addr then
      let c : ConnHandle := ⟨w2.fresh, addr⟩
      let w3 : World := { w2 with fresh := w2.fresh + 1 }
      (env.remoteResult c, { w3 with events := w3.events ++ [Ev.close c] })
    else
      (.error ("dial: " ++ env.dialErrMsg addr), w2)

/-- One public client operation together with its argument. -/
inductive Op where
  | join (addr : String)
  | notify (addr : String)
  | remove (addr : String)
  | apply (addr : String)
  | query (addr : String)
  | close
deriving DecidableEq, Repr

def stepOp (env : Env) (w : World) : Op → World
  | .join a => (Join env w a).2
  | .notify a => (Notify env w a).2
  | .remove a => (Remove env w a).2
  | .apply a => (Apply env w a).2
  | .query a => (Query env w a).2
  | .close => Close w

/-- Run a sequence of client operations from a fresh client. -/
def run (env : Env) (ops : List Op) : World :=
  ops.foldl (stepOp env) World.initial

/-- Handles for which a close event appears in the trace. -/
def closedConns (evs : List Ev) : List ConnHandle :=
  evs.foldr (fun e acc => match e with | .close c => c :: acc | _ => acc) []

/-- Number of connection establishments (dial events) in a trace. -/
def dialCount (evs : List Ev) : Nat :=
  (evs.filter fun e => match e with | Ev.dial _ => true | _ => false).length

/-- True exactly on `Except.error`. -/
def exIsErr {ε α : Type} : Except ε α → Bool
  | .error _ => true
  | .ok _ => false

/-- The port component a successful split extracts (empty on failure). -/
def portOf (s : String) : String :=
  match splitHostPort s with
  | .ok (_, p) => p
  | .error _ => ""

/-- The cache invariant exactly as the specification states it:
`connection` present iff `boundAddress` present (the Go zero value ""
plays the role of the absent address), and when both are present the
bound address resolves to the dial target of the cached handle. -/
def specCacheInvariant (env : Env) (s : CState) : Prop :=
  (s.leaderConn.isSome = true ↔ s.leaderAddr ≠ "") ∧
  (∀ h, s.leaderConn = some h → env.rpc s.leaderAddr = .ok h.target)

/-- The half of the invariant the code actually maintains: a present
connection is bound to a nonempty address that resolves to its target. -/
def connBindingInv (env : Env) (s : CState) : Prop :=
  ∀ h, s.leaderConn = some h →
    s.leaderAddr ≠ "" ∧ env.rpc s.leaderAddr = .ok h.target

/-- A concrete environment for witnesses: the resolver is the identity
except that it rejects the empty string, every dial succeeds, and the
remote call answers "ok". -/
def envA : Env :=
  { rpc := fun s => if s = "" then .error "missing address" else .ok s
    dialOk := fun _ => true
    dialErrMsg := fun _ => "connection refused"
    remoteResult := fun _ => .ok "ok" }

/-- Like envA, but dialing target "b" fails. -/
def envB : Env :=
  { envA with dialOk := fun ad => ad != "b" }

/-- Like envA, but the resolver rejects address "b". -/
def envC : Env :=
  { envA with rpc := fun s => if s = "b" then .error "unknown host" else .ok s }

theorem getConn_hit (env : Env) (w : World) (la : String) (c : ConnHandle)
    (hc : w.st.leaderConn = some c) (ha : la = w.st.leaderAddr) :
    getConn env w la = (.ok c, w) := by
  simp [getConn, hc, ha]

theorem getConn_stale (env : Env) (w : World) (la : String) (c : ConnHandle)
    (hc : w.st.leaderConn = some c) (ha : ¬ la = w.st.leaderAddr) :
    getConn env w la = getConnDial env { w with events := w.events ++ [Ev.close c] } la := by
  simp [getConn, hc, ha]

theorem getConn_none (env : Env) (w : World) (la : String)
    (hc : w.st.leaderConn = none) :
    getConn env w la = getConnDial env w la := by
  simp [getConn, hc]

theorem getConnDial_resolve_err (env : Env) (w : World) (la : String) (e : String)
    (h : env.rpc la = .error e) :
    getConnDial env w la =
      (.error ("resolve address: " ++ e),
       { w with events := w.events ++ [Ev.resolve la] }) := by
  simp [getConnDial, h]

theorem getConnDial_dial_err (env : Env) (w : World) (la : String) (ad : String)
    (h : env.rpc la = .ok ad) (hd : env.dialOk ad = false) :
    getConnDial env w la =
      (.error ("dial: " ++ env.dialErrMsg ad),
       { w with events := w.events ++ [Ev.resolve la, Ev.dial ad],
                st := { w.st with leaderConn := none } }) := by
  simp [getConnDial, h, hd]

theorem getConnDial_ok (env : Env) (w : World) (la : String) (ad : String)
    (h : env.rpc la = .ok ad) (hd : env.dialOk ad = true) :
    getConnDial env w la =
      (.ok ⟨w.fresh, ad⟩,
       { st := ⟨la, some ⟨w.fresh, ad⟩⟩,
         fresh := w.fresh + 1,
         events := w.events ++ [Ev.resolve la, Ev.dial ad] }) := by
  simp [getConnDial, h, hd]

theorem cacheOp_ok (env : Env) (w w1 : World) (la : String) (c : ConnHandle)
    (h : getConn env w la = (.ok c, w1)) :
    cacheOp env w la = (env.remoteResult c, w1) := by
  simp [cacheOp, h]

theorem cacheOp_err (env : Env) (w w1 : World) (la : String) (e : String)
    (h : getConn env w la = (.error e, w1)) :
    cacheOp env w la = (.error e, w1) := by
  simp [cacheOp, h]

theorem Notify_resolve_err (env : Env) (w : World) (ra : String) (e : String)
    (h : env.rpc ra = .error e) :
    Notify env w ra =
      (.error ("resolve address: " ++ e),
       { w with events := w.events ++ [Ev.resolve ra] }) := by
  simp [Notify, h]

theorem Notify_dial_err (env : Env) (w : World) (ra : String) (ad : String)
    (h : env.rpc ra = .ok ad) (hd : env.dialOk ad = false) :
    Notify env w ra =
      (.error ("dial: " ++ env.dialErrMsg ad),
       { w with events := w.events ++ [Ev.resolve ra, Ev.dial ad] }) := by
  simp [Notify, h, hd]

theorem Notify_ok (env : Env) (w : World) (ra : String) (ad : String)
    (h : env.rpc ra = .ok ad) (hd : env.dialOk ad = true) :
    Notify env w ra =
      (env.remoteResult ⟨w.fresh, ad⟩,
       { w with fresh := w.fresh + 1,
                events := w.events ++ [Ev.resolve ra, Ev.dial ad, Ev.close ⟨w.fresh, ad⟩] }) := by
  simp [Notify, h, hd]

theorem Close_some (w : World) (c : ConnHandle) (hc : w.st.leaderConn = some c) :
    Close w = { w with events := w.events ++ [Ev.close c] } := by
  simp [Close, hc]

theorem Close_none (w : World) (hc : w.st.leaderConn = none) : Close w = w := by
  simp [Close, hc]

theorem cacheOp_snd (env : Env) (w : World) (la : String) :
    (cacheOp env w la).2 = (getConn env w la).2 := by
  rcases h : getConn env w la with ⟨r, w1⟩
  cases r <;> simp [cacheOp, h]

theorem Notify_snd_st (env : Env) (w : World) (ra : String) :
    (Notify env w ra).2.st = w.st := by
  rcases hr : env.rpc ra with e | ad
  · rw [Notify_resolve_err env w ra e hr]
  · rcases hd : env.dialOk ad with _ | _
    · rw [Notify_dial_err env w ra ad hr hd]
    · rw [Notify_ok env w ra ad hr hd]

theorem closedConns_cons (e : Ev) (l : List Ev) :
    closedConns (e :: l) =
      match e with
      | .close c => c :: closedConns l
      | _ => closedConns l := rfl

theorem mem_closedConns_append (c : ConnHandle) (evs rest : List Ev) :
    c ∈ closedConns (evs ++ Ev.close c :: rest) := by
  induction evs with
  | nil => rw [List.nil_append, closedConns_cons]; exact List.mem_cons_self _ _
  | cons e l ih =>
    rw [List.cons_append, closedConns_cons]
    cases e <;> simp only [] <;> first
      | exact ih
      | exact List.mem_cons_of_mem _ ih

/-- A successful getConn leaves the cache bound to the requested
address with the returned handle. -/
theorem getConn_ok_post (env : Env) (w w1 : World) (la : String) (c : ConnHandle)
    (h : getConn env w la = (.ok c, w1)) :
    w1.st.leaderConn = some c ∧ w1.st.leaderAddr = la := by
  rcases hc : w.st.leaderConn with _ | c0
  · rw [getConn_none env w la hc] at h
    rcases hr : env.rpc la with e | ad
    · rw [getConnDial_resolve_err env w la e hr] at h
      simp at h
    · rcases hd : env.dialOk ad with _ | _
      · rw [getConnDial_dial_err env w la ad hr hd] at h
        simp at h
      · rw [getConnDial_ok env w la ad hr hd] at h
        rw [Prod.mk.injEq] at h
        obtain ⟨h1, h2⟩ := h
        subst h2
        simp at h1 ⊢
        exact h1
  · by_cases ha : la = w.st.leaderAddr
    · rw [getConn_hit env w la c0 hc ha] at h
      rw [Prod.mk.injEq] at h
      obtain ⟨h1, h2⟩ := h
      subst h2
      simp at h1
      subst h1
      exact ⟨hc, ha.symm⟩
    · rw [getConn_stale env w la c0 hc ha] at h
      rcases hr : env.rpc la with e | ad
      · rw [getConnDial_resolve_err env _ la e hr] at h
        simp at h
      · rcases hd : env.dialOk ad with _ | _
        · rw [getConnDial_dial_err env _ la ad hr hd] at h
          simp at h
        · rw [getConnDial_ok env _ la ad hr hd] at h
          rw [Prod.mk.injEq] at h
          obtain ⟨h1, h2⟩ := h
          subst h2
          simp at h1 ⊢
          exact h1

/-- Every getConn failure is a resolver failure wrapped as
"resolve address: ..." or a dial failure wrapped as "dial: ...". -/
theorem getConn_err_shape (env : Env) (w w1 : World) (la : String) (e : String)
    (h : getConn env w la = (.error e, w1)) :
    (∃ e0, env.rpc la = .error e0 ∧ e = "resolve address: " ++ e0) ∨
    (∃ ad, env.rpc la = .ok ad ∧ env.dialOk ad = false ∧
       e = "dial: " ++ env.dialErrMsg ad) := by
  have main : ∀ w0 : World, getConnDial env w0 la = (.error e, w1) →
      (∃ e0, env.rpc la = .error e0 ∧ e = "resolve address: " ++ e0) ∨
      (∃ ad, env.rpc la = .ok ad ∧ env.dialOk ad = false ∧
         e = "dial: " ++ env.dialErrMsg ad) := by
    intro w0 h0
    rcases hr : env.rpc la with e0 | ad
    · rw [getConnDial_resolve_err env w0 la e0 hr] at h0
      rw [Prod.mk.injEq] at h0
      obtain ⟨h1, -⟩ := h0
      simp at h1
      exact Or.inl ⟨e0, rfl, h1.symm⟩
    · rcases hd : env.dialOk ad with _ | _
      · rw [getConnDial_dial_err env w0 la ad hr hd] at h0
        rw [Prod.mk.injEq] at h0
        obtain ⟨h1, -⟩ := h0
        simp at h1
        exact Or.inr ⟨ad, rfl, hd, h1.symm⟩
      · rw [getConnDial_ok env w0 la ad hr hd] at h0
        simp at h0
  rcases hc : w.st.leaderConn with _ | c0
  · rw [getConn_none env w la hc] at h
    exact main w h
  · by_cases ha : la = w.st.leaderAddr
    · rw [getConn_hit env w la c0 hc ha] at h
      simp at h
    · rw [getConn_stale env w la c0 hc ha] at h
      exact main _ h

/-- C4: after a successful getOrCreate, a further getOrCreate with the
identical address returns the very same handle and leaves the world
(cache state, fresh-id supply, event trace) unchanged, so it performs
no resolution and no dial; iterating it any number of times keeps the
world fixed, hence exactly one establishment in total. -/
theorem getConn_idempotent_on_bound (env : Env) (w w1 : World) (a : String)
    (c : ConnHandle) (h : getConn env w a = (.ok c, w1)) :
    getConn env w1 a = (.ok c, w1) ∧
    ∀ k : Nat, (fun wa => (getConn env wa a).2)^[k] w1 = w1 := by
  obtain ⟨hc, ha⟩ := getConn_ok_post env w w1 a c h
  have hfix : getConn env w1 a = (.ok c, w1) := getConn_hit env w1 a c hc ha.symm
  refine ⟨hfix, ?_⟩
  intro k
  induction k with
  | zero => rfl
  | succ n ih =>
    rw [Function.iterate_succ_apply]
    simpa [hfix] using ih

theorem getConn_idempotent_on_bound_witness :
    getConn envA ⟨⟨"a", some ⟨0, "a"⟩⟩, 1, [Ev.resolve "a", Ev.dial "a"]⟩ "a" =
      (.ok ⟨0, "a"⟩, ⟨⟨"a", some ⟨0, "a"⟩⟩, 1, [Ev.resolve "a", Ev.dial "a"]⟩) :=
  (getConn_idempotent_on_bound envA World.initial
    ⟨⟨"a", some ⟨0, "a"⟩⟩, 1, [Ev.resolve "a", Ev.dial "a"]⟩ "a" ⟨0, "a"⟩ (by decide)).1

/-- C3: after a successful getOrCreate(a), a getOrCreate(b) with b ≠ a
that resolves and dials successfully closes the old handle exactly once,
dials exactly once, and leaves the cache bound to b with the freshly
dialed handle; the appended trace is exactly
[close old, resolve b, dial rb]. -/
theorem getConn_switch_address (env : Env) (w0 w : World) (a b rb : String)
    (h0 : ConnHandle) (hsucc : getConn env w0 a = (.ok h0, w)) (hne : b ≠ a)
    (hres : env.rpc b = .ok rb) (hdial : env.dialOk rb = true) :
    getConn env w b =
      (.ok ⟨w.fresh, rb⟩,
       { st := ⟨b, some ⟨w.fresh, rb⟩⟩, fresh := w.fresh + 1,
         events := w.events ++ [Ev.close h0, Ev.resolve b, Ev.dial rb] }) ∧
    (w.events ++ [Ev.close h0, Ev.resolve b, Ev.dial rb]).count (Ev.close h0) =
      w.events.count (Ev.close h0) + 1 ∧
    dialCount (w.events ++ [Ev.close h0, Ev.resolve b, Ev.dial rb]) =
      dialCount w.events + 1 := by
  obtain ⟨hc, ha⟩ := getConn_ok_post env w0 w a h0 hsucc
  have hstale := getConn_stale env w b h0 hc (by rw [ha]; exact hne)
  refine ⟨?_, ?_, ?_⟩
  · rw [hstale, getConnDial_ok env _ b rb hres hdial]
    simp
  · simp [List.count_append, List.count_cons]
  · simp [dialCount, List.filter_append]

theorem getConn_switch_address_witness :
    getConn envA ⟨⟨"a", some ⟨0, "a"⟩⟩, 1, [Ev.resolve "a", Ev.dial "a"]⟩ "b" =
      (.ok ⟨1, "b"⟩,
       ⟨⟨"b", some ⟨1, "b"⟩⟩, 2,
        [Ev.resolve "a", Ev.dial "a", Ev.close ⟨0, "a"⟩, Ev.resolve "b", Ev.dial "b"]⟩) :=
  (getConn_switch_address envA World.initial
    ⟨⟨"a", some ⟨0, "a"⟩⟩, 1, [Ev.resolve "a", Ev.dial "a"]⟩ "a" "b" "b" ⟨0, "a"⟩
    (by decide) (by decide) (by decide) (by decide)).1

/-- C9: when the cache is bound to a with a live handle and
getOrCreate(b), b ≠ a, fails at the resolve step, the old handle has
already been closed yet both cache fields keep their old values, and a
subsequent getOrCreate(a) returns that closed handle with no error and
without resolving or dialing. -/
theorem getConn_resolve_failure_stale_cache (env : Env) (w : World) (a b e : String)
    (h0 : ConnHandle) (hc : w.st.leaderConn = some h0) (ha : w.st.leaderAddr = a)
    (hne : b ≠ a) (hres : env.rpc b = .error e) :
    getConn env w b =
      (.error ("resolve address: " ++ e),
       { w with events := w.events ++ [Ev.close h0, Ev.resolve b] }) ∧
    h0 ∈ closedConns (w.events ++ [Ev.close h0, Ev.resolve b]) ∧
    getConn env { w with events := w.events ++ [Ev.close h0, Ev.resolve b] } a =
      (.ok h0, { w with events := w.events ++ [Ev.close h0, Ev.resolve b] }) := by
  have hstale := getConn_stale env w b h0 hc (by rw [ha]; exact hne)
  refine ⟨?_, ?_, ?_⟩
  · rw [hstale, getConnDial_resolve_err env _ b e hres]
    simp
  · exact mem_closedConns_append h0 w.events [Ev.resolve b]
  · exact getConn_hit env _ a h0 hc ha.symm

theorem getConn_resolve_failure_stale_cache_witness :
    getConn envC ⟨⟨"a", some ⟨0, "a"⟩⟩, 1, [Ev.resolve "a", Ev.dial "a"]⟩ "b" =
      (.error ("resolve address: " ++ "unknown host"),
       ⟨⟨"a", some ⟨0, "a"⟩⟩, 1,
        [Ev.resolve "a", Ev.dial "a", Ev.close ⟨0, "a"⟩, Ev.resolve "b"]⟩) ∧
    getConn envC
        ⟨⟨"a", some ⟨0, "a"⟩⟩, 1,
         [Ev.resolve "a", Ev.dial "a", Ev.close ⟨0, "a"⟩, Ev.resolve "b"]⟩ "a" =
      (.ok ⟨0, "a"⟩,
       ⟨⟨"a", some ⟨0, "a"⟩⟩, 1,
        [Ev.resolve "a", Ev.dial "a", Ev.close ⟨0, "a"⟩, Ev.resolve "b"]⟩) := by
  have h := getConn_resolve_failure_stale_cache envC
    ⟨⟨"a", some ⟨0, "a"⟩⟩, 1, [Ev.resolve "a", Ev.dial "a"]⟩ "a" "b" "unknown host"
    ⟨0, "a"⟩ rfl rfl (by decide) (by decide)
  exact ⟨h.1, h.2.2⟩

/-- C8: Notify opens a private connection that never touches the leader
cache (the client state is unchanged on every path), and when the dial
succeeds the private handle is closed on every exit path: the trace
always ends with its close event, whatever result the remote call
returns. -/
theorem notify_private_connection (env : Env) (w : World) (ra : String) :
    (Notify env w ra).2.st = w.st ∧
    (∀ e, env.rpc ra = .error e →
       (Notify env w ra).2 = { w with events := w.events ++ [Ev.resolve ra] }) ∧
    (∀ ad, env.rpc ra = .ok ad → env.dialOk ad = false →
       (Notify env w ra).2 = { w with events := w.events ++ [Ev.resolve ra, Ev.dial ad] }) ∧
    (∀ ad, env.rpc ra = .ok ad → env.dialOk ad = true →
       (Notify env w ra).1 = env.remoteResult ⟨w.fresh, ad⟩ ∧
       (Notify env w ra).2 =
         { w with fresh := w.fresh + 1,
                  events := w.events ++
                    [Ev.resolve ra, Ev.dial ad, Ev.close ⟨w.fresh, ad⟩] }) := by
  refine ⟨Notify_snd_st env w ra, ?_, ?_, ?_⟩
  · intro e h
    rw [Notify_resolve_err env w ra e h]
  · intro ad h hd
    rw [Notify_dial_err env w ra ad h hd]
  · intro ad h hd
    rw [Notify_ok env w ra ad h hd]
    exact ⟨rfl, rfl⟩

theorem notify_private_connection_witness :
    (Notify envA World.initial "a").2 =
      ⟨⟨"", none⟩, 1, [Ev.resolve "a", Ev.dial "a", Ev.close ⟨0, "a"⟩]⟩ :=
  ((notify_private_connection envA World.initial "a").2.2.2 "a" rfl rfl).2

/-- C5: Join, Remove, Apply and Query pass a connection failure through
as an error tagged with the failing phase ("resolve address: " for a
resolver failure, "dial: " for an establishment failure) and otherwise
return the remote call result unchanged; Notify does the same on its
private connection. -/
theorem ops_connection_error_phases (env : Env) (w : World) (la : String) :
    (∀ c w1, getConn env w la = (.ok c, w1) →
       Join env w la = (env.remoteResult c, w1) ∧
       Remove env w la = (env.remoteResult c, w1) ∧
       Apply env w la = (env.remoteResult c, w1) ∧
       Query env w la = (env.remoteResult c, w1)) ∧
    (∀ e w1, getConn env w la = (.error e, w1) →
       (Join env w la = (.error e, w1) ∧ Remove env w la = (.error e, w1) ∧
        Apply env w la = (.error e, w1) ∧ Query env w la = (.error e, w1)) ∧
       ((∃ e0, env.rpc la = .error e0 ∧ e = "resolve address: " ++ e0) ∨
        (∃ ad, env.rpc la = .ok ad ∧ env.dialOk ad = false ∧
           e = "dial: " ++ env.dialErrMsg ad))) ∧
    (∀ e, env.rpc la = .error e →
       (Notify env w la).1 = .error ("resolve address: " ++ e)) ∧
    (∀ ad, env.rpc la = .ok ad → env.dialOk ad = false →
       (Notify env w la).1 = .error ("dial: " ++ env.dialErrMsg ad)) ∧
    (∀ ad, env.rpc la = .ok ad → env.dialOk ad = true →
       (Notify env w la).1 = env.remoteResult ⟨w.fresh, ad⟩) := by
  refine ⟨?_, ?_, ?_, ?_, ?_⟩
  · intro c w1 h
    have hop := cacheOp_ok env w w1 la c h
    exact ⟨hop, hop, hop, hop⟩
  · intro e w1 h
    have hop := cacheOp_err env w w1 la e h
    exact ⟨⟨hop, hop, hop, hop⟩, getConn_err_shape env w w1 la e h⟩
  · intro e h
    rw [Notify_resolve_err env w la e h]
  · intro ad h hd
    rw [Notify_dial_err env w la ad h hd]
  · intro ad h hd
    rw [Notify_ok env w la ad h hd]

theorem ops_connection_error_phases_witness :
    Join envC World.initial "b" =
      (.error ("resolve address: " ++ "unknown host"),
       ⟨⟨"", none⟩, 0, [Ev.resolve "b"]⟩) :=
  (((ops_connection_error_phases envC World.initial "b").2.1
      ("resolve address: " ++ "unknown host")
      ⟨⟨"", none⟩, 0, [Ev.resolve "b"]⟩ (by decide)).1).1

/-- C1 counterexample: from an empty cache, Apply to "a" (which dials
and binds "a") followed by Close leaves the cache still holding the
handle and the bound address — not the Empty state the claim asserts —
and a subsequent getOrCreate("a") returns that previously cached handle
with the world unchanged (no fresh dial). -/
theorem close_leaves_cache_bound_cex :
    (run envA [Op.apply "a", Op.close]).st.leaderConn = some ⟨0, "a"⟩ ∧
    (run envA [Op.apply "a", Op.close]).st.leaderAddr = "a" ∧
    getConn envA (run envA [Op.apply "a", Op.close]) "a" =
      (.ok ⟨0, "a"⟩, run envA [Op.apply "a", Op.close]) := by
  exact ⟨by decide, by decide, by decide⟩

/-- C1 as amended: Close closes the cached handle but leaves both cache
fields set; a subsequent operation with the identical address returns
the previously cached (now closed) handle without resolving or dialing,
while an operation with a different address closes the stale handle
again and re-establishes a connection via a fresh dial. -/
theorem close_then_getConn_behavior (env : Env) (w : World) (a : String)
    (h0 : ConnHandle) (hc : w.st.leaderConn = some h0) (ha : w.st.leaderAddr = a) :
    (Close w).st = w.st ∧
    (Close w).events = w.events ++ [Ev.close h0] ∧
    h0 ∈ closedConns (Close w).events ∧
    getConn env (Close w) a = (.ok h0, Close w) ∧
    (∀ b rb, b ≠ a → env.rpc b = .ok rb → env.dialOk rb = true →
       getConn env (Close w) b =
         (.ok ⟨w.fresh, rb⟩,
          { st := ⟨b, some ⟨w.fresh, rb⟩⟩, fresh := w.fresh + 1,
            events := w.events ++
              [Ev.close h0, Ev.close h0, Ev.resolve b, Ev.dial rb] })) := by
  have hcw := Close_some w h0 hc
  refine ⟨by rw [hcw], by rw [hcw], ?_, ?_, ?_⟩
  · rw [hcw]
    exact mem_closedConns_append h0 w.events []
  · refine getConn_hit env (Close w) a h0 ?_ ?_
    · rw [hcw]; exact hc
    · rw [hcw]; exact ha.symm
  · intro b rb hb hrb hdial
    rw [hcw]
    have hstale := getConn_stale env { w with events := w.events ++ [Ev.close h0] }
      b h0 hc (by rw [show ({ w with events := w.events ++ [Ev.close h0] } : World).st.leaderAddr = a from ha]; exact hb)
    rw [hstale, getConnDial_ok env _ b rb hrb hdial]
    simp

theorem getConnDial_preserves_binding (env : Env) (w : World) (la : String)
    (hrpc : ∀ x, env.rpc "" ≠ Except.ok x) (hw : connBindingInv env w.st) :
    connBindingInv env (getConnDial env w la).2.st := by
  rcases hr : env.rpc la with e | ad
  · rw [getConnDial_resolve_err env w la e hr]
    exact hw
  · rcases hd : env.dialOk ad with _ | _
    · rw [getConnDial_dial_err env w la ad hr hd]
      intro h hh
      simp at hh
    · rw [getConnDial_ok env w la ad hr hd]
      intro h hh
      simp at hh
      subst hh
      refine ⟨?_, hr⟩
      intro hla
      exact hrpc ad (hla ▸ hr)

theorem getConn_preserves_binding (env : Env) (w : World) (la : String)
    (hrpc : ∀ x, env.rpc "" ≠ Except.ok x) (hw : connBindingInv env w.st) :
    connBindingInv env (getConn env w la).2.st := by
  rcases hc : w.st.leaderConn with _ | c0
  · rw [getConn_none env w la hc]
    exact getConnDial_preserves_binding env w la hrpc hw
  · by_cases ha : la = w.st.leaderAddr
    · rw [getConn_hit env w la c0 hc ha]
      exact hw
    · rw [getConn_stale env w la c0 hc ha]
      exact getConnDial_preserves_binding env _ la hrpc hw

theorem stepOp_preserves_binding (env : Env)
    (hrpc : ∀ x, env.rpc "" ≠ Except.ok x) (w : World)
    (hw : connBindingInv env w.st) (o : Op) :
    connBindingInv env (stepOp env w o).st := by
  cases o with
  | join a =>
    show connBindingInv env (Join env w a).2.st
    rw [show (Join env w a).2 = (getConn env w a).2 from cacheOp_snd env w a]
    exact getConn_preserves_binding env w a hrpc hw
  | remove a =>
    show connBindingInv env (Remove env w a).2.st
    rw [show (Remove env w a).2 = (getConn env w a).2 from cacheOp_snd env w a]
    exact getConn_preserves_binding env w a hrpc hw
  | apply a =>
    show connBindingInv env (Apply env w a).2.st
    rw [show (Apply env w a).2 = (getConn env w a).2 from cacheOp_snd env w a]
    exact getConn_preserves_binding env w a hrpc hw
  | query a =>
    show connBindingInv env (Query env w a).2.st
    rw [show (Query env w a).2 = (getConn env w a).2 from cacheOp_snd env w a]
    exact getConn_preserves_binding env w a hrpc hw
  | notify a =>
    show connBindingInv env (Notify env w a).2.st
    rw [Notify_snd_st env w a]
    exact hw
  | close =>
    show connBindingInv env (Close w).st
    rcases hc : w.st.leaderConn with _ | c
    · rw [Close_none w hc]; exact hw
    · rw [Close_some w c hc]; exact hw

/-- C2 counterexample: with a resolver that accepts "a" and "b" and a
dial that fails on target "b", binding "a" and then requesting "b"
leaves boundAddress = "a" with no connection (the failed
`cl.leaderConn, err = grpc.Dial(...)` overwrote the connection with nil
but kept the old leaderAddr), so the presence-iff half of the
specified invariant is violated after a dial-step failure. -/
theorem spec_cache_invariant_cex :
    ¬ specCacheInvariant envB (run envB [Op.apply "a", Op.apply "b"]).st := by
  intro hinv
  obtain ⟨h1, -⟩ := hinv
  have hst : (run envB [Op.apply "a", Op.apply "b"]).st = ⟨"a", none⟩ := by decide
  rw [hst] at h1
  exact absurd (h1.mpr (by decide)) (by decide)

/-- C2 as amended: for every resolver that rejects the empty address
and every operation sequence, whenever the connection field is present
the bound address is present (nonempty) and resolves to the cached
handle's dial target; the converse direction of the specified iff can
fail after a getOrCreate that fails at the dial step, which clears the
connection but keeps the previously bound address. -/
theorem run_preserves_conn_binding (env : Env) (ops : List Op)
    (hrpc : ∀ x, env.rpc "" ≠ Except.ok x) :
    ∀ h, (run env ops).st.leaderConn = some h →
      (run env ops).st.leaderAddr ≠ "" ∧
      env.rpc (run env ops).st.leaderAddr = .ok h.target := by
  have H : ∀ (l : List Op) (w : World), connBindingInv env w.st →
      connBindingInv env (l.foldl (stepOp env) w).st := by
    intro l
    induction l with
    | nil => intro w hw; exact hw
    | cons o rest ih =>
      intro w hw
      exact ih _ (stepOp_preserves_binding env hrpc w hw o)
  exact H ops World.initial (by intro h hh; simp [World.initial] at hh)

theorem run_preserves_conn_binding_witness :
    (run envA [Op.apply "a"]).st.leaderAddr ≠ "" ∧
    envA.rpc (run envA [Op.apply "a"]).st.leaderAddr =
      .ok (ConnHandle.mk 0 "a").target :=
  run_preserves_conn_binding envA [Op.apply "a"]
    (fun x hx => by
      rw [show envA.rpc "" = Except.error "missing address" from rfl] at hx
      exact Except.noConfusion hx)
    ⟨0, "a"⟩ (by decide)

theorem close_then_getConn_behavior_witness :
    getConn envA (Close ⟨⟨"a", some ⟨0, "a"⟩⟩, 1, [Ev.resolve "a", Ev.dial "a"]⟩) "a" =
      (.ok ⟨0, "a"⟩, Close ⟨⟨"a", some ⟨0, "a"⟩⟩, 1, [Ev.resolve "a", Ev.dial "a"]⟩) :=
  (close_then_getConn_behavior envA
    ⟨⟨"a", some ⟨0, "a"⟩⟩, 1, [Ev.resolve "a", Ev.dial "a"]⟩ "a" ⟨0, "a"⟩
    rfl rfl).2.2.2.1

theorem atoiCore_ok_range (neg : Bool) (ds : List Char) (n : Int)
    (h : atoiCore neg ds = .ok n) : -(2 ^ 63) ≤ n ∧ n ≤ 2 ^ 63 - 1 := by
  simp only [atoiCore] at h
  split at h
  · exact absurd h (by simp)
  · split at h
    · split at h <;> split at h
      · rename_i hr
        have hv := (Except.ok.injEq _ _).mp h
        subst hv
        exact hr
      · exact absurd h (by simp)
      · rename_i hr
        have hv := (Except.ok.injEq _ _).mp h
        subst hv
        exact hr
      · exact absurd h (by simp)
    · exact absurd h (by simp)

theorem atoiCore_ok_digits (neg : Bool) (ds : List Char) (n : Int)
    (h : atoiCore neg ds = .ok n) : ds.all isDigitChar = true := by
  simp only [atoiCore] at h
  split at h
  · exact absurd h (by simp)
  · split at h
    · rename_i hall
      exact hall
    · exact absurd h (by simp)

theorem Atoi_range (p : String) (n : Int) (h : Atoi p = .ok n) :
    -(2 ^ 63) ≤ n ∧ n ≤ 2 ^ 63 - 1 := by
  simp only [Atoi] at h
  exact atoiCore_ok_range _ _ _ h

theorem digit_not_reserved (c : Char) (hc : isDigitChar c = true) :
    c ≠ ':' ∧ c ≠ '[' ∧ c ≠ ']' := by
  refine ⟨?_, ?_, ?_⟩ <;> rintro rfl <;> simp [isDigitChar] at hc

/-- A string strconv.Atoi accepts consists of an optional sign and
digits, so it contains no colon and no brackets. -/
theorem Atoi_ok_chars (p : String) (n : Int) (h : Atoi p = .ok n) :
    ∀ c ∈ p.toList, c ≠ ':' ∧ c ≠ '[' ∧ c ≠ ']' := by
  simp only [Atoi] at h
  by_cases hsign :
      (p.toList.head? == some '-' || p.toList.head? == some '+') = true
  · rcases hl : p.toList with _ | ⟨c0, t⟩
    · rw [hl] at hsign
      simp at hsign
    · rw [hl] at hsign h
      rw [if_pos hsign] at h
      have hall : t.all isDigitChar = true := atoiCore_ok_digits _ _ _ h
      have hc0 : c0 = '-' ∨ c0 = '+' := by simpa using hsign
      intro c hc
      rcases List.mem_cons.mp hc with rfl | hmem
      · rcases hc0 with rfl | rfl <;> exact ⟨by decide, by decide, by decide⟩
      · exact digit_not_reserved c (by
          have := List.all_eq_true.mp hall c hmem
          simpa using this)
  · rw [if_neg hsign] at h
    have hall : p.toList.all isDigitChar = true := atoiCore_ok_digits _ _ _ h
    intro c hc
    exact digit_not_reserved c (by
      have := List.all_eq_true.mp hall c hc
      simpa using this)

theorem wrap64_eq (n : Int) (h1 : -(2 ^ 63) ≤ n) (h2 : n ≤ 2 ^ 63 - 1) :
    wrap64 n = n := by
  have e1 : (2 : Int) ^ 63 = 9223372036854775808 := by norm_num
  have e2 : (2 : Int) ^ 64 = 18446744073709551616 := by norm_num
  rw [e1] at h1 h2
  unfold wrap64
  rw [e1, e2]
  omega

theorem wrap64_max : wrap64 (2 ^ 63 - 1 + 1) = -(2 ^ 63) := by decide

/-- C7: the resolver fails exactly when the input does not split as a
host:port pair, or — local (offset) mode only — when the port does not
parse as an integer; in fixed-port mode the port text is never parsed,
so a non-integer port in a well-formed pair is not an error. -/
theorem resolver_error_conditions (r : rpcResolver) (s : String) :
    exIsErr (r.Address s) =
      (exIsErr (splitHostPort s) ||
        (r.isLocalCluster && exIsErr (Atoi (portOf s)))) := by
  rcases hsp : splitHostPort s with e | hp
  · simp [rpcResolver.Address, hsp, exIsErr]
  · obtain ⟨hh, pp⟩ := hp
    have hport : portOf s = pp := by simp [portOf, hsp]
    rcases hloc : r.isLocalCluster with _ | _
    · simp [rpcResolver.Address, hsp, hloc, exIsErr]
    · rcases hat : Atoi pp with e2 | n2 <;>
        simp [rpcResolver.Address, hsp, hloc, hport, hat, exIsErr]

/-- C6 counterexample: in offset mode the port arithmetic is Go 64-bit
int addition, so at the maximal int64 port the result wraps instead of
being port+1. -/
theorem resolver_modes_cex :
    rpcResolver.Address ⟨true, 8300⟩ "10.0.0.5:9223372036854775807" =
      .ok "10.0.0.5:-9223372036854775808" ∧
    rpcResolver.Address ⟨true, 8300⟩ "10.0.0.5:9223372036854775807" ≠
      .ok ("10.0.0.5:" ++ toString ((9223372036854775807 : Int) + 1)) :=
  ⟨by decide, by decide⟩

/-- C6 as amended: for every input that splits as host:port, fixed-port
mode returns host:configuredServicePort; offset mode, when the port
parses as integer n, returns host:(n+1) whenever n is below the maximal
int64, and wraps to host:(-2^63) at n = 2^63 - 1. -/
theorem resolver_modes (s hs p : String) (hsp : splitHostPort s = .ok (hs, p)) :
    (∀ port : Int,
       rpcResolver.Address ⟨false, port⟩ s = .ok (hs ++ ":" ++ toString port)) ∧
    (∀ n : Int, Atoi p = .ok n →
       (n < 2 ^ 63 - 1 → ∀ port : Int,
          rpcResolver.Address ⟨true, port⟩ s = .ok (hs ++ ":" ++ toString (n + 1))) ∧
       (n = 2 ^ 63 - 1 → ∀ port : Int,
          rpcResolver.Address ⟨true, port⟩ s =
            .ok (hs ++ ":" ++ toString (-(2 ^ 63) : Int)))) := by
  constructor
  · intro port
    simp [rpcResolver.Address, hsp]
  · intro n hn
    obtain ⟨h1, h2⟩ := Atoi_range p n hn
    constructor
    · intro hlt port
      have hw : wrap64 (n + 1) = n + 1 :=
        wrap64_eq (n + 1) (by linarith) (by linarith)
      simp [rpcResolver.Address, hsp, hn, hw]
    · intro hmax port
      subst hmax
      have hmx : wrap64 9223372036854775808 = -9223372036854775808 := by decide
      simp [rpcResolver.Address, hsp, hn, wrap64_max, hmx]

theorem resolver_modes_witness :
    rpcResolver.Address ⟨false, 8300⟩ "10.0.0.5:7000" =
      .ok ("10.0.0.5" ++ ":" ++ toString (8300 : Int)) ∧
    rpcResolver.Address ⟨true, 8300⟩ "10.0.0.5:7000" =
      .ok ("10.0.0.5" ++ ":" ++ toString ((7000 : Int) + 1)) := by
  have h := resolver_modes "10.0.0.5:7000" "10.0.0.5" "7000" (by decide)
  exact ⟨h.1 8300, (h.2 7000 (by decide)).1 (by decide) 8300⟩

theorem firstIdx_cons (x : Char) (xs : List Char) (c : Char) :
    firstIdx (x :: xs) c =
      if x = c then some 0 else (firstIdx xs c).map (· + 1) := rfl

theorem lastIdx_cons (x : Char) (xs : List Char) (c : Char) :
    lastIdx (x :: xs) c =
      match lastIdx xs c with
      | some i => some (i + 1)
      | none => if x = c then some 0 else none := rfl

theorem firstIdx_eq_none (l : List Char) (c : Char) (h : c ∉ l) :
    firstIdx l c = none := by
  induction l with
  | nil => rfl
  | cons x xs ih =>
    rw [firstIdx_cons, if_neg, ih (fun hm => h (List.mem_cons_of_mem _ hm))]
    · rfl
    · intro hx
      exact h (List.mem_cons.mpr (Or.inl hx.symm))

theorem lastIdx_eq_none (l : List Char) (c : Char) (h : c ∉ l) :
    lastIdx l c = none := by
  induction l with
  | nil => rfl
  | cons x xs ih =>
    rw [lastIdx_cons, ih (fun hm => h (List.mem_cons_of_mem _ hm))]
    exact if_neg (fun hx => h (List.mem_cons.mpr (Or.inl hx.symm)))

theorem lastIdx_append_cons (xs ys : List Char) (c : Char) (hys : c ∉ ys) :
    lastIdx (xs ++ c :: ys) c = some xs.length := by
  induction xs with
  | nil =>
    rw [List.nil_append, lastIdx_cons, lastIdx_eq_none ys c hys]
    simp
  | cons x l ih =>
    rw [List.cons_append, lastIdx_cons, ih]
    rfl

theorem drop_len_cons_append (xs ys : List Char) (c : Char) :
    (xs ++ c :: ys).drop (xs.length + 1) = ys := by
  induction xs with
  | nil => rfl
  | cons x l ih => exact ih

theorem mk_toList (s : String) : String.mk s.toList = s := rfl

/-- Concatenating a bare host (no colon, no brackets), a colon and a
colon/bracket-free port splits back into exactly that host and port. -/
theorem splitHostPort_concat (hs p : String)
    (hh : ∀ c ∈ hs.toList, c ≠ ':' ∧ c ≠ '[' ∧ c ≠ ']')
    (hp : ∀ c ∈ p.toList, c ≠ ':' ∧ c ≠ '[' ∧ c ≠ ']') :
    splitHostPort (hs ++ ":" ++ p) = .ok (hs, p) := by
  have htl : (hs ++ ":" ++ p).toList = hs.toList ++ ':' :: p.toList := by simp
  have hcp : ':' ∉ p.toList := fun hm => (hp _ hm).1 rfl
  have hch : ':' ∉ hs.toList := fun hm => (hh _ hm).1 rfl
  have hbl : '[' ∉ hs.toList ++ ':' :: p.toList := by
    intro hm
    rcases List.mem_append.mp hm with hm | hm
    · exact (hh _ hm).2.1 rfl
    · rcases List.mem_cons.mp hm with hm | hm
      · exact absurd hm (by decide)
      · exact (hp _ hm).2.1 rfl
  have hbr : ']' ∉ hs.toList ++ ':' :: p.toList := by
    intro hm
    rcases List.mem_append.mp hm with hm | hm
    · exact (hh _ hm).2.2 rfl
    · rcases List.mem_cons.mp hm with hm | hm
      · exact absurd hm (by decide)
      · exact (hp _ hm).2.2 rfl
  have hhead : ¬ ((hs.toList ++ ':' :: p.toList).head? = some '[') := by
    intro hcon
    rcases hcase : hs.toList with _ | ⟨c0, t⟩
    · rw [hcase] at hcon
      simp at hcon
    · rw [hcase] at hcon
      simp at hcon
      exact (hh c0 (by rw [hcase]; exact List.mem_cons_self _ _)).2.1 hcon
  have htake : (hs.toList ++ ':' :: p.toList).take hs.toList.length = hs.toList :=
    List.take_left _ _
  have hdrop : (hs.toList ++ ':' :: p.toList).drop (hs.toList.length + 1) = p.toList :=
    drop_len_cons_append _ _ _
  simp only [splitHostPort, htl, lastIdx_append_cons hs.toList p.toList ':' hcp,
    htake, hdrop, firstIdx_eq_none hs.toList ':' hch,
    firstIdx_eq_none (hs.toList ++ ':' :: p.toList) '[' hbl,
    firstIdx_eq_none (hs.toList ++ ':' :: p.toList) ']' hbr, hhead]
  simp [mk_toList]

/-- C10 counterexample: at port 2^63 - 1 (which strconv.Atoi accepts)
the +1 offset wraps, so the resolver does not return host:(port+1). -/
theorem offset_wraparound_cex :
    rpcResolver.Address ⟨true, 0⟩ "x:9223372036854775807" =
      .ok "x:-9223372036854775808" ∧
    rpcResolver.Address ⟨true, 0⟩ "x:9223372036854775807" ≠
      .ok ("x:" ++ toString ((9223372036854775807 : Int) + 1)) :=
  ⟨by decide, by decide⟩

/-- C10 as amended: the offset resolver performs no port-range
validation: for every bare host and every port string that parses as an
int64 n — negative values and values above 65535 included — resolution
succeeds and returns host:(n+1), provided only that n is below the
maximal int64 (where Go int addition wraps instead). -/
theorem offset_no_range_validation (hs p : String) (n port : Int)
    (hh : ∀ c ∈ hs.toList, c ≠ ':' ∧ c ≠ '[' ∧ c ≠ ']')
    (hn : Atoi p = .ok n) (hlt : n < 2 ^ 63 - 1) :
    rpcResolver.Address ⟨true, port⟩ (hs ++ ":" ++ p) =
      .ok (hs ++ ":" ++ toString (n + 1)) := by
  have hsp := splitHostPort_concat hs p hh (Atoi_ok_chars p n hn)
  obtain ⟨h1, h2⟩ := Atoi_range p n hn
  have hw : wrap64 (n + 1) = n + 1 := wrap64_eq (n + 1) (by linarith) (by linarith)
  simp [rpcResolver.Address, hsp, hn, hw]

theorem offset_no_range_validation_witness :
    rpcResolver.Address ⟨true, 7⟩ ("h" ++ ":" ++ "-2") =
      .ok ("h" ++ ":" ++ toString ((-2 : Int) + 1)) ∧
    rpcResolver.Address ⟨true, 7⟩ ("h" ++ ":" ++ "65535") =
      .ok ("h" ++ ":" ++ toString ((65535 : Int) + 1)) :=
  ⟨offset_no_range_validation "h" "-2" (-2) 7 (by decide) (by decide) (by decide),
   offset_no_range_validation "h" "65535" 65535 7 (by decide) (by decide) (by decide)⟩

end Transport
